import Mathlib

/-!
Verification development for the goal/card orchestration engine
(backend orchestrator service, card repository and usage checker).

The definitions below are a shallow embedding of the Python source:

* `Card`, `ALLOWED_TRANSITIONS`, `CardRepository.*` embed
  `src/backend/src/repositories/card_repository.py` and
  `src/backend/src/models/card.py`;
* `UsageInfo`, `check_usage`, `parse_usage_output` embed
  `src/backend/src/services/usage_checker_service.py`;
* `step_think`, `get_cards_status`, `act_execute_card`, `act_decompose`,
  `execute_cycle` and friends embed
  `src/backend/src/services/orchestrator_service.py`.

Stateful repository methods become pure functions from the list of stored
rows to the updated list of stored rows.  External collaborators
(the stage executor, the decomposer, the usage probe, uuid generation)
become explicit oracle inputs.  Parts of the repository that are imported
and tested but whose implementation file is absent from the source tree
(the goal repository, `create_fix_card`, `update_dependencies`, the
dependency / fix fields of `Card`) are modelled from the spec; each such
definition carries a doc comment saying so.
-/

namespace Orq

/-- Status of a goal, from `models/orchestrator.py` (`GoalStatus`). -/
inductive GoalStatus where
  | pending
  | active
  | completed
  | failed
  | paused
deriving DecidableEq, Repr

/-- A goal row, from `models/orchestrator.py` (`Goal`).  Only the fields the
orchestrator's decision loop reads are embedded; `cards` is the ordered list
of card ids attached by decomposition. -/
structure Goal where
  id : String
  description : String
  status : GoalStatus
  cards : List String
deriving DecidableEq, Repr

/-- A card row.  `id`, `title`, `description`, `column_id`, `spec_path` and
the four `model_*` fields are from `models/card.py` (`Card`).
The fields `dependencies`, `is_fix_card`, `parent_card_id` and
`test_error_context` are modelled from the spec (§3 Card) and the card
repository tests: the orchestrator service and the tests read and write
them, but the model file in the source tree does not declare them. -/
structure Card where
  id : String
  title : String
  description : String
  column_id : String
  spec_path : Option String
  model_plan : String
  model_implement : String
  model_test : String
  model_review : String
  dependencies : List String
  is_fix_card : Bool
  parent_card_id : Option String
  test_error_context : Option String
deriving DecidableEq, Repr

/-- Default field values for a freshly created card
(`CardRepository.create` puts new cards in the backlog column). -/
def Card.fresh (id title description : String) : Card :=
  { id := id
    title := title
    description := description
    column_id := "backlog"
    spec_path := none
    model_plan := "opus-4.5"
    model_implement := "opus-4.5"
    model_test := "opus-4.5"
    model_review := "opus-4.5"
    dependencies := []
    is_fix_card := false
    parent_card_id := none
    test_error_context := none }

/-- The SDLC transition table from `repositories/card_repository.py`
(`ALLOWED_TRANSITIONS`), verbatim. -/
def ALLOWED_TRANSITIONS : List (String × List String) :=
  [ ("backlog", ["plan", "cancelado"])
  , ("plan", ["in-progress", "cancelado"])
  , ("in-progress", ["test", "cancelado"])
  , ("test", ["review", "cancelado"])
  , ("review", ["done", "cancelado"])
  , ("done", ["archived", "cancelado"])
  , ("archived", ["done"])
  , ("cancelado", []) ]

/-- `ALLOWED_TRANSITIONS.get(current_column, [])` in the source. -/
def allowedTransitions (column : String) : List String :=
  ((ALLOWED_TRANSITIONS.find? (fun p => p.1 = column)).map (fun p => p.2)).getD []

namespace CardRepository

/-- `CardRepository.get_by_id`: select the card with the given primary key. -/
def get_by_id (cards : List Card) (card_id : String) : Option Card :=
  cards.find? (fun c => c.id = card_id)

/-- Replace the row whose id matches `card.id` (the ORM mutates the row in
place; on a list of rows this is a map keyed by id). -/
def putCard (cards : List Card) (card : Card) : List Card :=
  cards.map (fun c => if c.id = card.id then card else c)

/-- Result of `CardRepository.move`: the Python method returns a
`(card, error_message)` pair and mutates the stored row on success. -/
structure MoveResult where
  card : Option Card
  error : Option String
  cards : List Card
deriving DecidableEq, Repr

/-- `CardRepository.move`: SDLC-validated column change.  Returns the moved
card on success, or an error message (without throwing) when the target
column is not in `ALLOWED_TRANSITIONS` for the card's current column. -/
def move (cards : List Card) (card_id new_column_id : String) : MoveResult :=
  match get_by_id cards card_id with
  | none => ⟨none, some "Card not found", cards⟩
  | some card =>
    let allowed := allowedTransitions card.column_id
    if new_column_id ∈ allowed then
      let moved := { card with column_id := new_column_id }
      ⟨some moved, none, putCard cards moved⟩
    else
      ⟨none, some ("Invalid transition from " ++ card.column_id ++ " to " ++ new_column_id), cards⟩

/-- `CardRepository.create`: insert a new card in the backlog column.
The uuid is an oracle input. -/
def create (cards : List Card) (id title description : String) : Card × List Card :=
  let card := Card.fresh id title description
  (card, cards ++ [card])

/-- `CardRepository.update_spec_path`: set the spec path of a card. -/
def update_spec_path (cards : List Card) (card_id spec_path : String) : List Card :=
  match get_by_id cards card_id with
  | none => cards
  | some card => putCard cards { card with spec_path := some spec_path }

/-- Modelled from the spec: `CardRepository.update_dependencies` is called by
the decomposition second pass but is absent from
`repositories/card_repository.py`; per §4.1 it persists the resolved
dependency card ids on the card. -/
def update_dependencies (cards : List Card) (card_id : String) (deps : List String) : List Card :=
  match get_by_id cards card_id with
  | none => cards
  | some card => putCard cards { card with dependencies := deps }

/-- Columns that terminate a card's life for fix-card purposes
(spec §3: non-terminal means neither done nor cancelled). -/
def terminalColumns : List String := ["done", "cancelado"]

/-- Whether a card is a live (non-terminal) fix card of the given parent. -/
def isActiveFix (parent_id : String) (c : Card) : Bool :=
  c.is_fix_card && decide (c.parent_card_id = some parent_id)
    && decide (c.column_id ∉ terminalColumns)

/-- Modelled from the spec: `CardRepository.get_active_fix_card` is exercised
by `tests/test_card_repository.py` but absent from the repository file; it
returns the non-terminal fix card of the given parent, if any. -/
def get_active_fix_card (cards : List Card) (parent_id : String) : Option Card :=
  cards.find? (isActiveFix parent_id)

/-- All live fix cards of a parent (for stating the per-parent uniqueness
invariant). -/
def activeFixCards (cards : List Card) (parent_id : String) : List Card :=
  cards.filter (isActiveFix parent_id)

/-- Error context handed to fix-card creation
(`_act_create_fix` builds a description / context pair). -/
structure ErrorInfo where
  description : String
  context : String
deriving DecidableEq, Repr

/-- Modelled from the spec: `CardRepository.create_fix_card` is called by
`_act_create_fix` and exercised by `tests/test_card_repository.py` but
absent from the repository file.  Per spec §4.1 `create_fix` idempotently
returns an existing non-terminal fix card for the parent, or creates a new
fix card in `backlog` inheriting the parent's model configuration with the
structured error context attached; it fails (returns `none`) when the
parent card does not exist. -/
def create_fix_card (cards : List Card) (parent_id : String) (e : ErrorInfo)
    (new_id : String) : Option (Card × List Card) :=
  match get_by_id cards parent_id with
  | none => none
  | some parent =>
    match get_active_fix_card cards parent_id with
    | some existing => some (existing, cards)
    | none =>
      let fix : Card :=
        { id := new_id
          title := "[FIX] " ++ parent.title
          description := e.description
          column_id := "backlog"
          spec_path := none
          model_plan := parent.model_plan
          model_implement := parent.model_implement
          model_test := parent.model_test
          model_review := parent.model_review
          dependencies := []
          is_fix_card := true
          parent_card_id := some parent_id
          test_error_context := some e.context }
      some (fix, cards ++ [fix])

end CardRepository

/-! ## Usage checker (`services/usage_checker_service.py`) -/

/-- `UsageInfo` from `usage_checker_service.py`.  Percentages are Python
floats in the source; the values compared are parsed decimal numerals and
an integer threshold, so they are embedded as rationals. -/
structure UsageInfo where
  session_used_percent : ℚ
  daily_used_percent : ℚ
  is_safe_to_execute : Bool
  raw_output : String
  error : Option String
deriving DecidableEq, Repr

/-- One line of `claude /usage` output after the source's lexical analysis:
`percents` are the numbers matched by the percent regex on the lowercased
line in order, and the three flags record whether the substrings the parser
looks for occur in the line. -/
structure UsageLine where
  percents : List ℚ
  hasSession : Bool
  hasDaily : Bool
  hasLimitOrUsed : Bool
deriving DecidableEq, Repr

namespace UsageCheckerService

/-- The per-line update of `_parse_usage_output`'s scan: state is the
`(session_percent, daily_percent)` pair. -/
def parseLine (st : ℚ × ℚ) (line : UsageLine) : ℚ × ℚ :=
  match line.percents with
  | [] => st
  | value :: _ =>
    if line.hasSession then (value, st.2)
    else if line.hasDaily then (st.1, value)
    else if line.hasLimitOrUsed then
      if st.1 = 0 then (value, st.2) else st
    else st

/-- `UsageCheckerService._parse_usage_output`: scan the output lines for
session / daily percentages, then declare execution safe iff the larger of
the two is strictly below the threshold. -/
def parse_usage_output (limit_threshold : ℚ) (lines : List UsageLine)
    (raw : String) : UsageInfo :=
  let st := lines.foldl parseLine (0, 0)
  let session_percent := st.1
  let daily_percent := st.2
  let max_usage := max session_percent daily_percent
  let is_safe := decide (max_usage < limit_threshold)
  { session_used_percent := session_percent
    daily_used_percent := daily_percent
    is_safe_to_execute := is_safe
    raw_output := raw
    error := none }

/-- Outcome of launching the `claude /usage` probe — the cases of
`check_usage`'s try/except ladder: the subprocess completes with a return
code and output, times out, the binary is missing (`FileNotFoundError`),
or an unexpected exception is raised. -/
inductive ProbeOutcome where
  | completed (returncode : Int) (stdout : List UsageLine) (raw stderr : String)
  | timeout
  | notFound
  | otherError (message : String)
deriving DecidableEq, Repr

/-- `UsageCheckerService.check_usage`: run the probe and classify.
Nonzero exit and timeout report unsafe; a missing binary or an unexpected
exception assume safe; a zero exit parses the output. -/
def check_usage (limit_threshold : ℚ) (probe : ProbeOutcome) : UsageInfo :=
  match probe with
  | .completed returncode stdout raw stderr =>
    if returncode ≠ 0 then
      { session_used_percent := 0
        daily_used_percent := 0
        is_safe_to_execute := false
        raw_output := stderr
        error := some "Command failed with nonzero code" }
    else
      parse_usage_output limit_threshold stdout raw
  | .timeout =>
    { session_used_percent := 0
      daily_used_percent := 0
      is_safe_to_execute := false
      raw_output := ""
      error := some "Command timed out" }
  | .notFound =>
    { session_used_percent := 0
      daily_used_percent := 0
      is_safe_to_execute := true
      raw_output := ""
      error := some "claude command not found" }
  | .otherError message =>
    { session_used_percent := 0
      daily_used_percent := 0
      is_safe_to_execute := true
      raw_output := ""
      error := some message }

end UsageCheckerService

/-! ## Goal repository

`repositories/orchestrator_repository.py` is imported by the orchestrator
service, the memory service and the routes, but the file itself is absent
from the source tree; the goal accessors below are modelled from the spec. -/

namespace GoalRepository

/-- Modelled from the spec: `GoalRepository.get_active_goal` (absent
`orchestrator_repository.py`) returns the current active Goal, if any
(§4.2: the context bundles the current active Goal; §3: at most one Goal is
active). -/
def get_active_goal (goals : List Goal) : Option Goal :=
  goals.find? (fun g => decide (g.status = GoalStatus.active))

/-- Modelled from the spec: `GoalRepository.get_pending_goals` (absent
`orchestrator_repository.py`) returns the pending Goals oldest first
(§4.2 rule 2 picks the oldest pending Goal; rows are listed in creation
order). -/
def get_pending_goals (goals : List Goal) : List Goal :=
  goals.filter (fun g => decide (g.status = GoalStatus.pending))

/-- Modelled from the spec: `GoalRepository.update_status` (absent
`orchestrator_repository.py`) sets the status of the goal with the given
id. -/
def update_status (goals : List Goal) (goal_id : String) (status : GoalStatus) : List Goal :=
  goals.map (fun g => if g.id = goal_id then { g with status := status } else g)

/-- Modelled from the spec: `GoalRepository.get_by_id` (absent
`orchestrator_repository.py`) selects a goal by primary key. -/
def get_by_id (goals : List Goal) (goal_id : String) : Option Goal :=
  goals.find? (fun g => decide (g.id = goal_id))

/-- Modelled from the spec: `GoalRepository.add_card` (absent
`orchestrator_repository.py`) appends a card id to the goal's card list
(§3: the card-id list is append-only, mutated by decomposition). -/
def add_card (goals : List Goal) (goal_id card_id : String) : List Goal :=
  goals.map (fun g => if g.id = goal_id then { g with cards := g.cards ++ [card_id] } else g)

end GoalRepository

/-! ## Orchestrator service (`services/orchestrator_service.py`) -/

/-- `OrchestratorDecision` from `orchestrator_service.py`. -/
inductive OrchestratorDecision where
  | verify_limit
  | decompose
  | execute_card
  | execute_cards_parallel
  | create_fix
  | wait
  | complete_goal
deriving DecidableEq, Repr

/-- `ThinkResult` from `orchestrator_service.py`.  `context` keeps only the
error payload the source stores under the `error` key. -/
structure ThinkResult where
  decision : OrchestratorDecision
  goal_id : Option String := none
  card_ids : Option (List String) := none
  reason : String := ""
  context : Option String := none
deriving DecidableEq, Repr

/-- The `card_id` property of `ThinkResult`: the first card id when the list
is present and non-empty (an empty list is falsy in the source). -/
def ThinkResult.card_id (t : ThinkResult) : Option String :=
  match t.card_ids with
  | some (c :: _) => some c
  | _ => none

/-- `ActResult` from `orchestrator_service.py`. -/
structure ActResult where
  success : Bool
  should_learn : Bool := false
  learning : Option String := none
  error : Option String := none
deriving DecidableEq, Repr

/-- One entry of the list computed by `_get_cards_status`. -/
structure CardStatus where
  id : String
  title : String
  column : String
  dependencies : List String
  dependencies_satisfied : Bool
  ready_to_execute : Bool
  needs_fix : Bool
deriving DecidableEq, Repr

/-- The first pass of `_get_cards_status`: the `cards` dict, keyed by id,
holding only the requested ids that exist in the store. -/
def fetchCards (cards : List Card) (card_ids : List String) : String → Option Card :=
  fun i => if i ∈ card_ids then CardRepository.get_by_id cards i else none

/-- A dependency is satisfied when the fetched dict holds it and its column
is done (`cards.get(dep_id) and cards.get(dep_id).column_id == "done"`). -/
def depDone (fetched : String → Option Card) (dep_id : String) : Bool :=
  match fetched dep_id with
  | some dc => decide (dc.column_id = "done")
  | none => false

/-- `OrchestratorService._get_cards_status`: status of the goal's cards with
dependency satisfaction.  `needs_fix` is hardcoded `False` in the source
(its comment reads: TODO Detect test failures). -/
def get_cards_status (card_ids : List String) (cards : List Card) : List CardStatus :=
  let fetched := fetchCards cards card_ids
  card_ids.filterMap (fun card_id =>
    match fetched card_id with
    | none => none
    | some card =>
      let deps := card.dependencies
      let deps_satisfied := deps.all (depDone fetched)
      let is_executable_column :=
        decide (card.column_id ∈ (["backlog", "plan", "implement", "test", "review"] : List String))
      some { id := card.id
             title := card.title
             column := card.column_id
             dependencies := deps
             dependencies_satisfied := deps_satisfied
             ready_to_execute := is_executable_column && deps_satisfied
             needs_fix := false })

/-- `OrchestratorService._step_think`: decide the next action.  Returns the
decision together with the goal list after the step, because the source
activates the first pending goal inside this step (it calls
`goal_repo.update_status(first_goal.id, GoalStatus.ACTIVE)` before
returning `DECOMPOSE`).  In the `CREATE_FIX` branch the source passes a
`card_id` keyword to the `ThinkResult` dataclass, which has no such init
field; the embedding records the evident intent (the failed card's id). -/
def step_think (usage : UsageInfo) (goals : List Goal) (cards : List Card) :
    ThinkResult × List Goal :=
  if usage.is_safe_to_execute = false then
    ({ decision := .wait, reason := "Usage limit exceeded" }, goals)
  else
    match GoalRepository.get_active_goal goals with
    | some active_goal =>
      let card_ids := active_goal.cards
      if card_ids.isEmpty then
        ({ decision := .decompose
           goal_id := some active_goal.id
           reason := "Active goal has no cards, need to decompose" }, goals)
      else
        let cards_status := get_cards_status card_ids cards
        match cards_status.filter (fun c => c.needs_fix) with
        | failed :: _ =>
          ({ decision := .create_fix
             goal_id := some active_goal.id
             card_ids := some [failed.id]
             reason := "Card failed test, creating fix"
             context := some failed.id }, goals)
        | [] =>
          match cards_status.filter (fun c => c.ready_to_execute) with
          | ready :: _ =>
            ({ decision := .execute_card
               goal_id := some active_goal.id
               card_ids := some [ready.id]
               reason := "Card ready to execute" }, goals)
          | [] =>
            let done_cards := cards_status.filter
              (fun c => decide (c.column ∈ (["done", "completed"] : List String)))
            if done_cards.length = cards_status.length then
              ({ decision := .complete_goal
                 goal_id := some active_goal.id
                 reason := "All cards completed" }, goals)
            else
              ({ decision := .wait
                 goal_id := some active_goal.id
                 reason := "Cards in progress, waiting" }, goals)
    | none =>
      match GoalRepository.get_pending_goals goals with
      | first_goal :: _ =>
        ({ decision := .decompose
           goal_id := some first_goal.id
           reason := "Activated pending goal" },
         GoalRepository.update_status goals first_goal.id .active)
      | [] =>
        ({ decision := .wait, reason := "No active or pending goals" }, goals)

/-! ## Act handlers -/

/-- Result of one stage-executor invocation (`execute_plan` /
`execute_implement` in `agent.py`): success flag, error text and, for the
plan stage, the produced spec path artifact. -/
structure StageResult where
  success : Bool
  error : String
  spec_path : Option String
deriving DecidableEq, Repr

/-- The external stage executor as an oracle: the results the plan and
implement stages would return for the card in this cycle. -/
structure ExecOracle where
  plan : StageResult
  implement : StageResult
deriving DecidableEq, Repr

/-- What `_act_execute_card` produced: the action result, the card rows
after the action, how many times the external stage executor was invoked,
and whether the source's mid-cycle `session.commit()` (reached right after
the final move to done succeeds) ran. -/
structure ExecCardOutcome where
  result : ActResult
  cards : List Card
  invocations : Nat
  committed_mid_cycle : Bool
deriving DecidableEq, Repr

/-- The card table after the Stage-1 move of `_act_execute_card`
(`self._move_card_with_broadcast(card_id, "plan", ...)`, its error being
discarded); the move only runs when the card started in backlog or plan. -/
def plan_moved (cards0 : List Card) (card_id : String) (planStage : Bool) : List Card :=
  if planStage then (CardRepository.move cards0 card_id "plan").cards else cards0

/-- The card table after Stage 1 saves the plan artifact
(`card_repo.update_spec_path`), run when the plan stage ran and returned a
spec path.  (The source tests the path's truthiness; a present path is
embedded as `some`.) -/
def spec_saved (oracle : ExecOracle) (cards1 : List Card) (card_id : String)
    (planStage : Bool) : List Card :=
  if planStage then
    match oracle.plan.spec_path with
    | some p => CardRepository.update_spec_path cards1 card_id p
    | none => cards1
  else cards1

/-- The card table after the Stage-2 move of `_act_execute_card`
(`self._move_card_with_broadcast(card_id, "implement", ...)`, error again
discarded). -/
def implement_moved (cards2 : List Card) (card_id : String) (implStage : Bool) : List Card :=
  if implStage then (CardRepository.move cards2 card_id "implement").cards else cards2

/-- `OrchestratorService._act_execute_card`: run the simplified workflow for
one card.  `current_column` is captured at entry; the moves to plan and to
implement discard their error result; the final move targets the done
column directly and, when it succeeds, the source commits the session
immediately. -/
def act_execute_card (oracle : ExecOracle) (cards0 : List Card)
    (card_id? : Option String) : ExecCardOutcome :=
  match card_id? with
  | none => ⟨{ success := false, error := some "Card not found" }, cards0, 0, false⟩
  | some card_id =>
    match CardRepository.get_by_id cards0 card_id with
    | none => ⟨{ success := false, error := some "Card not found" }, cards0, 0, false⟩
    | some card0 =>
      let current_column := card0.column_id
      if current_column = "done" then
        ⟨{ success := true }, cards0, 0, false⟩
      else
        let planStage : Bool := decide (current_column ∈ (["backlog", "plan"] : List String))
        let implStage : Bool :=
          decide (current_column ∈ (["backlog", "plan", "implement"] : List String))
        let cards1 := plan_moved cards0 card_id planStage
        if planStage && !oracle.plan.success then
          ⟨{ success := false, error := some ("Plan failed: " ++ oracle.plan.error) },
           cards1, 1, false⟩
        else
          let cards2 := spec_saved oracle cards1 card_id planStage
          let card2 := (CardRepository.get_by_id cards2 card_id).getD card0
          let planInvocations := if planStage then 1 else 0
          if implStage && decide (card2.spec_path = none) then
            ⟨{ success := false, error := some "Card has no spec_path" },
             cards2, planInvocations, false⟩
          else
            let cards3 := implement_moved cards2 card_id implStage
            let invocations := planInvocations + (if implStage then 1 else 0)
            if implStage && !oracle.implement.success then
              ⟨{ success := false, error := some ("Implement failed: " ++ oracle.implement.error) },
               cards3, invocations, false⟩
            else
              let mv := CardRepository.move cards3 card_id "done"
              match mv.error with
              | some e =>
                ⟨{ success := false, error := some ("Failed to move to done: " ++ e) },
                 cards3, invocations, false⟩
              | none =>
                ⟨{ success := true
                   should_learn := true
                   learning := some ("Successfully completed workflow for card: " ++ card2.title) },
                 mv.cards, invocations, true⟩

/-- One card proposed by the decomposer
(`goal_decomposer_service.decompose_goal`). -/
structure DecomposedCard where
  title : String
  description : String
  order : Int
  dependencies : List Int
deriving DecidableEq, Repr

/-- The decomposer's answer, per the decomposer contract in the spec. -/
structure DecompositionResult where
  success : Bool
  cards : List DecomposedCard
  reasoning : String
  error : Option String
deriving DecidableEq, Repr

/-- First pass of `_act_decompose`: create every proposed card in the
backlog, append it to the goal's card list, and record the order-to-id
mapping (a dict write, so a later card with the same order overwrites).
`idGen` supplies the uuids, applied to a running index. -/
def decompose_first_pass (idGen : Nat → String) (goal_id : String) :
    List DecomposedCard → Nat → List Card → List Goal → (Int → Option String) → List String →
    List Card × List Goal × (Int → Option String) × List String
  | [], _, cards, goals, order_to_id, created => (cards, goals, order_to_id, created)
  | dc :: rest, i, cards, goals, order_to_id, created =>
    let creation := CardRepository.create cards (idGen i) dc.title dc.description
    let card := creation.1
    let cards1 := creation.2
    let goals1 := GoalRepository.add_card goals goal_id card.id
    let order_to_id1 := fun o => if o = dc.order then some card.id else order_to_id o
    decompose_first_pass idGen goal_id rest (i + 1) cards1 goals1 order_to_id1
      (created ++ [card.id])

/-- The dependency-resolution comprehension of `_act_decompose`'s second
pass: map each declared order index through the order-to-id dict, keeping
only indices the dict knows. -/
def resolve_deps (order_to_id : Int → Option String) (deps : List Int) : List String :=
  deps.filterMap order_to_id

/-- One iteration of `_act_decompose`'s second pass: for a proposed card
with declared dependencies, look its own order up in the dict and, when the
resolved dependency list is non-empty, persist it on the created card. -/
def second_pass_step (order_to_id : Int → Option String) (cs : List Card)
    (dc : DecomposedCard) : List Card :=
  if dc.dependencies.isEmpty then cs
  else
    match order_to_id dc.order with
    | none => cs
    | some card_id =>
      let resolved := resolve_deps order_to_id dc.dependencies
      if resolved.isEmpty then cs
      else CardRepository.update_dependencies cs card_id resolved

/-- Second pass of `_act_decompose`: run `second_pass_step` over every
proposed card. -/
def decompose_second_pass (order_to_id : Int → Option String)
    (dcards : List DecomposedCard) (cards : List Card) : List Card :=
  dcards.foldl (second_pass_step order_to_id) cards

/-- `OrchestratorService._act_decompose`: call the decomposer, then run the
two creation passes. -/
def act_decompose (idGen : Nat → String) (deco : DecompositionResult)
    (goal_id? : Option String) (goals : List Goal) (cards : List Card) :
    ActResult × List Goal × List Card :=
  match goal_id? with
  | none => ({ success := false, error := some "Goal not found" }, goals, cards)
  | some goal_id =>
    match GoalRepository.get_by_id goals goal_id with
    | none => ({ success := false, error := some "Goal not found" }, goals, cards)
    | some _goal =>
      if !deco.success then
        ({ success := false, error := some (deco.error.getD "Failed to decompose goal") },
         goals, cards)
      else
        let fp := decompose_first_pass idGen goal_id deco.cards 0 cards goals (fun _ => none) []
        let cards2 := decompose_second_pass fp.2.2.1 deco.cards fp.1
        ({ success := true }, fp.2.1, cards2)

/-- `OrchestratorService._act_create_fix`: build the error info and delegate
to the card repository; fail when no fix card comes back. -/
def act_create_fix (fix_id : String) (card_id? : Option String)
    (context : Option String) (cards : List Card) : ActResult × List Card :=
  match card_id? with
  | none => ({ success := false, error := some "Failed to create fix card" }, cards)
  | some card_id =>
    let e : CardRepository.ErrorInfo :=
      { description := "Fix for test failure", context := context.getD "" }
    match CardRepository.create_fix_card cards card_id e fix_id with
    | some (_fix, cards1) => ({ success := true }, cards1)
    | none => ({ success := false, error := some "Failed to create fix card" }, cards)

/-- `OrchestratorService._act_complete_goal`: mark the goal completed and
produce the learning summary. -/
def act_complete_goal (goal_id? : Option String) (goals : List Goal) :
    ActResult × List Goal :=
  match goal_id? with
  | none => ({ success := false, error := some "Goal not found" }, goals)
  | some goal_id =>
    match GoalRepository.get_by_id goals goal_id with
    | none => ({ success := false, error := some "Goal not found" }, goals)
    | some goal =>
      ({ success := true
         should_learn := true
         learning := some ("Completed goal: " ++ goal.description) },
       GoalRepository.update_status goals goal_id .completed)

/-- The goal and card tables of the store. -/
structure StoreState where
  goals : List Goal
  cards : List Card
deriving DecidableEq, Repr

/-- All the oracle inputs one cycle consumes: the usage snapshot, the
decomposer's answer, the stage executor's answers, the uuid supply, and
whether the record step raises (the record and learn steps write log,
action and learning rows, none of which the claims mention; only their
possible failure matters to the transaction behavior). -/
structure CycleInputs where
  usage : UsageInfo
  decomposition : DecompositionResult
  exec : ExecOracle
  fix_id : String
  idGen : Nat → String
  record_fails : Bool

/-- `OrchestratorService._step_act`: dispatch on the decision.  The third
component reports whether the handler committed the session mid-cycle
(only `_act_execute_card` does).  `EXECUTE_CARDS_PARALLEL` is never
produced by `_step_think` (parallel execution is disabled in the source);
it is embedded as acting on the first card like `EXECUTE_CARD`. -/
def step_act (inp : CycleInputs) (tr : ThinkResult) (st : StoreState) :
    ActResult × StoreState × Bool :=
  match tr.decision with
  | .verify_limit => ({ success := true }, st, false)
  | .decompose =>
    let r := act_decompose inp.idGen inp.decomposition tr.goal_id st.goals st.cards
    (r.1, ⟨r.2.1, r.2.2⟩, false)
  | .execute_card =>
    let out := act_execute_card inp.exec st.cards tr.card_id
    (out.result, ⟨st.goals, out.cards⟩, out.committed_mid_cycle)
  | .execute_cards_parallel =>
    let out := act_execute_card inp.exec st.cards tr.card_id
    (out.result, ⟨st.goals, out.cards⟩, out.committed_mid_cycle)
  | .create_fix =>
    let r := act_create_fix inp.fix_id tr.card_id tr.context st.cards
    (r.1, ⟨st.goals, r.2⟩, false)
  | .complete_goal =>
    let r := act_complete_goal tr.goal_id st.goals
    (r.1, ⟨r.2, st.cards⟩, false)
  | .wait => ({ success := true }, st, false)

/-- Outcome of `_execute_cycle`: the committed store after the cycle,
whether the cycle ran to completion (`ok = false` means an exception
unwound to the rollback handler), and how many commits ran. -/
structure CycleOutcome where
  committed : StoreState
  ok : Bool
  commits : Nat
deriving DecidableEq, Repr

/-- `OrchestratorService._execute_cycle`: open a fresh session on the
committed store, run Think then Act on the session state, then Record; an
exception in Record rolls the session back, success commits it.  A
mid-cycle commit inside `_act_execute_card` makes the post-act state
durable before Record runs. -/
def execute_cycle (inp : CycleInputs) (committed : StoreState) : CycleOutcome :=
  let think := step_think inp.usage committed.goals committed.cards
  let acted := step_act inp think.1 ⟨think.2, committed.cards⟩
  let st2 := acted.2.1
  let inner := acted.2.2
  let committed_after_act := if inner then st2 else committed
  if inp.record_fails then
    { committed := committed_after_act, ok := false, commits := if inner then 1 else 0 }
  else
    { committed := st2, ok := true, commits := (if inner then 1 else 0) + 1 }

/-- Number of goals in status active. -/
def countActive (goals : List Goal) : Nat :=
  (goals.filter (fun g => decide (g.status = GoalStatus.active))).length

/-- Well-formedness of a committed store for the single-active invariant:
goal ids are distinct (they are primary keys) and at most one goal is
active. -/
def GoalsWF (st : StoreState) : Prop :=
  (st.goals.map Goal.id).Nodup ∧ countActive st.goals ≤ 1

/-- One committed-state transition: some cycle, with some oracle inputs,
takes the committed store from `s` to `s'`. -/
def cycleStep (s s' : StoreState) : Prop :=
  ∃ inp, (execute_cycle inp s).committed = s'

/-! ## Comparison definitions taken from the spec's words -/

/-- The immediate next column in the fixed sequence
backlog → plan → implement → test → review → done that the spec claims
`advance`/`move` enforces.  This definition follows the spec's words, for
comparison with the source's `ALLOWED_TRANSITIONS`. -/
def specNextColumn : String → Option String
  | "backlog" => some "plan"
  | "plan" => some "implement"
  | "implement" => some "test"
  | "test" => some "review"
  | "review" => some "done"
  | _ => none

/-! ## C5: column transitions of `CardRepository.move` -/

/-- A card sitting in the plan column, for the C5 counterexample. -/
def planCard : Card := { Card.fresh "c1" "T" "D" with column_id := "plan" }

/-- C5 counterexample: the claim says `move` errors whenever the target is
not the immediate next column of the sequence
backlog→plan→implement→test→review→done.  But for a card in `plan` the
source accepts the target `in-progress` (its table reads
plan → in-progress), which is not the claimed immediate next column
(`implement`); the spec's sequence does not even contain `in-progress`. -/
theorem c5_transition_counterexample :
    (CardRepository.move [planCard] "c1" "in-progress").error = none
    ∧ ((CardRepository.move [planCard] "c1" "in-progress").card.map Card.column_id
        = some "in-progress")
    ∧ specNextColumn "plan" = some "implement"
    ∧ ("in-progress" : String) ≠ "implement" := by
  refine ⟨rfl, rfl, rfl, ?_⟩
  decide

/-- C5 (amended): `move` returns an error value (it does not throw) exactly
when the target column is not listed in the source's transition table for
the card's current column — the forward chain being
backlog→plan→in-progress→test→review→done, with every pipeline column also
allowed to move to `cancelado` and done↔archived — and on error the stored
cards are unchanged; in particular the skipping transition backlog→test is
rejected. -/
theorem c5_move_amended (cards : List Card) (cid target : String) :
    ((CardRepository.move cards cid target).error = none ↔
      ∃ c, CardRepository.get_by_id cards cid = some c ∧ target ∈ allowedTransitions c.column_id)
    ∧ ((CardRepository.move cards cid target).error ≠ none →
        (CardRepository.move cards cid target).cards = cards)
    ∧ "test" ∉ allowedTransitions "backlog" := by
  refine ⟨⟨?_, ?_⟩, ?_, by decide⟩
  · intro he
    unfold CardRepository.move at he
    cases h : CardRepository.get_by_id cards cid with
    | none => simp only [h] at he; exact Option.noConfusion he
    | some card =>
      simp only [h] at he
      by_cases hmem : target ∈ allowedTransitions card.column_id
      · exact ⟨card, rfl, hmem⟩
      · simp only [if_neg hmem] at he
        exact Option.noConfusion he
  · rintro ⟨c, hc, hm⟩
    unfold CardRepository.move
    simp only [hc, if_pos hm]
  · intro hne
    unfold CardRepository.move at hne ⊢
    cases h : CardRepository.get_by_id cards cid with
    | none => simp only [h]
    | some card =>
      simp only [h] at hne ⊢
      by_cases hmem : target ∈ allowedTransitions card.column_id
      · simp only [if_pos hmem] at hne
        exact absurd rfl hne
      · simp only [if_neg hmem]

/-- Witness for `c5_move_amended` at a concrete store: a single backlog
card, asked to skip to `test`. -/
theorem c5_move_amended_witness :
    ((CardRepository.move [Card.fresh "c1" "T" "D"] "c1" "test").error = none ↔
      ∃ c, CardRepository.get_by_id [Card.fresh "c1" "T" "D"] "c1" = some c
        ∧ "test" ∈ allowedTransitions c.column_id)
    ∧ ((CardRepository.move [Card.fresh "c1" "T" "D"] "c1" "test").error ≠ none →
        (CardRepository.move [Card.fresh "c1" "T" "D"] "c1" "test").cards
          = [Card.fresh "c1" "T" "D"])
    ∧ "test" ∉ allowedTransitions "backlog" :=
  c5_move_amended [Card.fresh "c1" "T" "D"] "c1" "test"

/-! ## C9: asymmetry of the usage circuit breaker under probe failure -/

/-- C9: the circuit breaker is asymmetric under probe failure.  A probe
that cannot launch (missing binary, unexpected exception) reports safe and
Think proceeds to the same decision as with any other safe snapshot; a
probe that runs but exits nonzero, or times out, reports unsafe, and Think
then decides WAIT. -/
theorem c9_probe_failure_asymmetry (t : ℚ) (m raw stderr : String) (rc : Int)
    (out : List UsageLine) (goals : List Goal) (cards : List Card) (u u' : UsageInfo) :
    (UsageCheckerService.check_usage t .notFound).is_safe_to_execute = true
    ∧ (UsageCheckerService.check_usage t (.otherError m)).is_safe_to_execute = true
    ∧ (rc ≠ 0 →
        (UsageCheckerService.check_usage t (.completed rc out raw stderr)).is_safe_to_execute
          = false)
    ∧ (UsageCheckerService.check_usage t .timeout).is_safe_to_execute = false
    ∧ (u.is_safe_to_execute = false → (step_think u goals cards).1.decision = .wait)
    ∧ (u.is_safe_to_execute = true → u'.is_safe_to_execute = true →
        step_think u goals cards = step_think u' goals cards) := by
  refine ⟨rfl, rfl, ?_, rfl, ?_, ?_⟩
  · intro hrc
    unfold UsageCheckerService.check_usage
    simp only [if_pos hrc]
  · intro hu
    unfold step_think
    rw [hu]
    rfl
  · intro hu hu'
    unfold step_think
    rw [hu, hu']

/-- Witness for `c9_probe_failure_asymmetry`: exit code 1, and two concrete
snapshots (one unsafe, two safe and equal). -/
theorem c9_probe_failure_asymmetry_witness :
    (UsageCheckerService.check_usage 80 .notFound).is_safe_to_execute = true
    ∧ (UsageCheckerService.check_usage 80 (.otherError "boom")).is_safe_to_execute = true
    ∧ ((1 : Int) ≠ 0 →
        (UsageCheckerService.check_usage 80 (.completed 1 [] "" "err")).is_safe_to_execute
          = false)
    ∧ (UsageCheckerService.check_usage 80 .timeout).is_safe_to_execute = false
    ∧ ((⟨90, 0, false, "", none⟩ : UsageInfo).is_safe_to_execute = false →
        (step_think ⟨90, 0, false, "", none⟩ [] []).1.decision = .wait)
    ∧ ((⟨90, 0, false, "", none⟩ : UsageInfo).is_safe_to_execute = true →
        (⟨10, 0, true, "", none⟩ : UsageInfo).is_safe_to_execute = true →
        step_think ⟨90, 0, false, "", none⟩ [] [] = step_think ⟨10, 0, true, "", none⟩ [] []) :=
  c9_probe_failure_asymmetry 80 "boom" "" "err" 1 [] [] [] ⟨90, 0, false, "", none⟩
    ⟨10, 0, true, "", none⟩

/-! ## C10: the safety comparison is strict -/

/-- C10: for every parsed usage snapshot, `is_safe_to_execute` holds iff
the larger of the session and daily percentages is strictly below the
threshold; when the maximum exactly equals the threshold the snapshot is
unsafe and Think decides WAIT. -/
theorem c10_strict_threshold (t : ℚ) (lines : List UsageLine) (raw : String)
    (goals : List Goal) (cards : List Card) :
    ((UsageCheckerService.parse_usage_output t lines raw).is_safe_to_execute
      = decide (max (UsageCheckerService.parse_usage_output t lines raw).session_used_percent
          (UsageCheckerService.parse_usage_output t lines raw).daily_used_percent < t))
    ∧ (max (UsageCheckerService.parse_usage_output t lines raw).session_used_percent
        (UsageCheckerService.parse_usage_output t lines raw).daily_used_percent = t →
        (UsageCheckerService.parse_usage_output t lines raw).is_safe_to_execute = false
        ∧ (step_think (UsageCheckerService.parse_usage_output t lines raw) goals cards).1.decision
            = .wait) := by
  constructor
  · rfl
  · intro hmax
    have hsafe : (UsageCheckerService.parse_usage_output t lines raw).is_safe_to_execute
        = false := by
      show decide _ = false
      rw [decide_eq_false_iff_not]
      rw [show (UsageCheckerService.parse_usage_output t lines raw).session_used_percent
            = (lines.foldl UsageCheckerService.parseLine (0, 0)).1 from rfl,
          show (UsageCheckerService.parse_usage_output t lines raw).daily_used_percent
            = (lines.foldl UsageCheckerService.parseLine (0, 0)).2 from rfl] at hmax
      show ¬ (max (lines.foldl UsageCheckerService.parseLine (0, 0)).1
          (lines.foldl UsageCheckerService.parseLine (0, 0)).2 < t)
      rw [hmax]
      exact lt_irrefl t
    refine ⟨hsafe, ?_⟩
    unfold step_think
    rw [hsafe]
    rfl

/-- Witness for `c10_strict_threshold`: a single output line reading 80
percent of session usage against the default threshold of 80. -/
theorem c10_strict_threshold_witness :
    ((UsageCheckerService.parse_usage_output 80 [⟨[80], true, false, false⟩] "").is_safe_to_execute
      = decide (max (UsageCheckerService.parse_usage_output 80
            [⟨[80], true, false, false⟩] "").session_used_percent
          (UsageCheckerService.parse_usage_output 80
            [⟨[80], true, false, false⟩] "").daily_used_percent < 80))
    ∧ (max (UsageCheckerService.parse_usage_output 80
          [⟨[80], true, false, false⟩] "").session_used_percent
        (UsageCheckerService.parse_usage_output 80
          [⟨[80], true, false, false⟩] "").daily_used_percent = 80 →
        (UsageCheckerService.parse_usage_output 80
          [⟨[80], true, false, false⟩] "").is_safe_to_execute = false
        ∧ (step_think (UsageCheckerService.parse_usage_output 80
            [⟨[80], true, false, false⟩] "") [] []).1.decision = .wait) :=
  c10_strict_threshold 80 [⟨[80], true, false, false⟩] "" [] []

/-! ## C6: needs_fix detection is stubbed out -/

/-- Every status row built by `_get_cards_status` carries
`needs_fix = false`: the source hardcodes the field. -/
theorem get_cards_status_needs_fix (card_ids : List String) (cards : List Card) :
    ∀ s ∈ get_cards_status card_ids cards, s.needs_fix = false := by
  intro s hs
  unfold get_cards_status at hs
  rw [List.mem_filterMap] at hs
  obtain ⟨cid, _, hf⟩ := hs
  cases hfc : fetchCards cards card_ids cid with
  | none => rw [hfc] at hf; exact Option.noConfusion hf
  | some card =>
    simp only [hfc] at hf
    injection hf with hf
    rw [← hf]

/-- C6 (code bug): the CREATE_FIX path is unreachable.  `_get_cards_status`
hardcodes `needs_fix` to `False` (its own comment reads: TODO Detect test
failures), so no stage failure is ever flagged and `_step_think` can never
return the CREATE_FIX decision, contrary to the spec's rule 4 and its
Scenario C. -/
theorem c6_needs_fix_never_detected (usage : UsageInfo) (goals : List Goal)
    (cards : List Card) (card_ids : List String) :
    ((get_cards_status card_ids cards).all (fun s => !s.needs_fix)) = true
    ∧ (step_think usage goals cards).1.decision ≠ .create_fix := by
  constructor
  · rw [List.all_eq_true]
    intro s hs
    rw [get_cards_status_needs_fix card_ids cards s hs]
    rfl
  · unfold step_think
    by_cases hu : usage.is_safe_to_execute = false
    · rw [if_pos hu]
      exact fun hd => OrchestratorDecision.noConfusion hd
    · rw [if_neg hu]
      cases hact : GoalRepository.get_active_goal goals with
      | none =>
        cases hp : GoalRepository.get_pending_goals goals with
        | nil =>
          simp only
          exact fun hd => OrchestratorDecision.noConfusion hd
        | cons g gs =>
          simp only
          exact fun hd => OrchestratorDecision.noConfusion hd
      | some active_goal =>
        simp only
        by_cases hempty : active_goal.cards.isEmpty
        · rw [if_pos hempty]
          exact fun hd => OrchestratorDecision.noConfusion hd
        · rw [if_neg hempty]
          cases hfail : (get_cards_status active_goal.cards cards).filter
              (fun c => c.needs_fix) with
          | cons failed rest =>
            exfalso
            have hmem : failed ∈ (get_cards_status active_goal.cards cards).filter
                (fun c => c.needs_fix) := by
              rw [hfail]; exact List.mem_cons_self failed rest
            rw [List.mem_filter] at hmem
            have hfalse := get_cards_status_needs_fix active_goal.cards cards failed hmem.1
            rw [hfalse] at hmem
            exact Bool.noConfusion hmem.2
          | nil =>
            simp only
            cases hready : (get_cards_status active_goal.cards cards).filter
                (fun c => c.ready_to_execute) with
            | cons ready rest =>
              exact fun hd => OrchestratorDecision.noConfusion hd
            | nil =>
              simp only
              by_cases hdone : ((get_cards_status active_goal.cards cards).filter
                  (fun c => decide (c.column ∈ (["done", "completed"] : List String)))).length
                  = (get_cards_status active_goal.cards cards).length
              · rw [if_pos hdone]
                exact fun hd => OrchestratorDecision.noConfusion hd
              · rw [if_neg hdone]
                exact fun hd => OrchestratorDecision.noConfusion hd

/-! ## C3: the Think step is not mutation-free -/

/-- A safe usage snapshot for concrete runs. -/
def safeUsage : UsageInfo :=
  { session_used_percent := 0
    daily_used_percent := 0
    is_safe_to_execute := true
    raw_output := ""
    error := none }

/-- A pending goal with no cards, for the C3 counterexample. -/
def pendingGoal : Goal := { id := "g1", description := "demo goal", status := .pending, cards := [] }

/-- C3 counterexample: the claim says Think performs no mutation of Goal
state.  But on a store holding one pending goal and no active goal,
`_step_think` itself flips the pending goal's status to active (it calls
`goal_repo.update_status(..., ACTIVE)` before returning DECOMPOSE), so the
goal table after Think differs from the one before. -/
theorem c3_think_mutates_counterexample :
    (step_think safeUsage [pendingGoal] []).2 ≠ [pendingGoal]
    ∧ (step_think safeUsage [pendingGoal] []).2.map (fun g => g.status) = [GoalStatus.active]
    ∧ (step_think safeUsage [pendingGoal] []).1.decision = .decompose := by
  refine ⟨?_, rfl, rfl⟩
  decide

/-- The mutation profile of `_step_think`: either the goal table is
returned unchanged, or no goal was active, a pending goal existed, and the
first pending goal was activated while deciding DECOMPOSE. -/
theorem step_think_mutation_cases (u : UsageInfo) (goals : List Goal) (cards : List Card) :
    (step_think u goals cards).2 = goals
    ∨ (GoalRepository.get_active_goal goals = none
       ∧ ∃ g gs, GoalRepository.get_pending_goals goals = g :: gs
          ∧ (step_think u goals cards).1.decision = .decompose
          ∧ (step_think u goals cards).2 = GoalRepository.update_status goals g.id .active) := by
  unfold step_think
  by_cases hu : u.is_safe_to_execute = false
  · rw [if_pos hu]; exact Or.inl rfl
  · rw [if_neg hu]
    cases hact : GoalRepository.get_active_goal goals with
    | some active_goal =>
      simp only
      by_cases hempty : active_goal.cards.isEmpty
      · rw [if_pos hempty]; exact Or.inl rfl
      · rw [if_neg hempty]
        cases (get_cards_status active_goal.cards cards).filter (fun c => c.needs_fix) with
        | cons failed rest => exact Or.inl rfl
        | nil =>
          simp only
          cases (get_cards_status active_goal.cards cards).filter
              (fun c => c.ready_to_execute) with
          | cons ready rest => exact Or.inl rfl
          | nil =>
            simp only
            by_cases hdone : ((get_cards_status active_goal.cards cards).filter
                (fun c => decide (c.column ∈ (["done", "completed"] : List String)))).length
                = (get_cards_status active_goal.cards cards).length
            · rw [if_pos hdone]; exact Or.inl rfl
            · rw [if_neg hdone]; exact Or.inl rfl
    | none =>
      cases hp : GoalRepository.get_pending_goals goals with
      | nil => exact Or.inl rfl
      | cons g gs => exact Or.inr ⟨rfl, g, gs, rfl, rfl, rfl⟩

/-- C3 (amended): Think returns exactly one decision and leaves the goal
table unchanged, except in exactly one case: when no goal is active and
pending goals exist, it activates the first pending goal and decides
DECOMPOSE.  It never mutates cards (in the embedding it only reads the
card table). -/
theorem c3_think_mutation_amended (u : UsageInfo) (goals : List Goal) (cards : List Card) :
    (step_think u goals cards).2 = goals
    ∨ (GoalRepository.get_active_goal goals = none
       ∧ ∃ g gs, GoalRepository.get_pending_goals goals = g :: gs
          ∧ (step_think u goals cards).1.decision = .decompose
          ∧ (step_think u goals cards).2 = GoalRepository.update_status goals g.id .active) :=
  step_think_mutation_cases u goals cards

/-! ## C4: stage-executor invocations per card per cycle -/

/-- Replacing a row keyed like the found row keeps lookups pointed at the
replacement. -/
theorem get_by_id_putCard (cards : List Card) (cid : String) (card new : Card)
    (hid : new.id = cid) (h : CardRepository.get_by_id cards cid = some card) :
    CardRepository.get_by_id (CardRepository.putCard cards new) cid = some new := by
  unfold CardRepository.get_by_id at h
  unfold CardRepository.get_by_id CardRepository.putCard
  rw [List.find?_map]
  have hpred : ((fun c : Card => decide (c.id = cid)) ∘
      (fun c : Card => if c.id = new.id then new else c))
      = (fun c : Card => decide (c.id = cid)) := by
    funext c
    by_cases hc : c.id = new.id
    · simp [hc, hid]
    · simp [hc]
  have hcard := @List.find?_some Card (fun c : Card => decide (c.id = cid)) card cards h
  have hcard' : card.id = new.id := by rw [of_decide_eq_true hcard, hid]
  rw [hpred, h]
  simp [hcard']

/-- When `move` succeeds, the moved card is stored with the target column. -/
theorem move_success_column (cards : List Card) (cid t : String)
    (h : (CardRepository.move cards cid t).error = none) :
    ∃ c, CardRepository.get_by_id (CardRepository.move cards cid t).cards cid = some c
      ∧ c.column_id = t := by
  unfold CardRepository.move at h ⊢
  cases hg : CardRepository.get_by_id cards cid with
  | none => simp only [hg] at h; exact Option.noConfusion h
  | some card =>
    simp only [hg] at h ⊢
    by_cases hmem : t ∈ allowedTransitions card.column_id
    · simp only [if_pos hmem] at h ⊢
      refine ⟨{ card with column_id := t }, ?_, rfl⟩
      have hg' : cards.find? (fun c => decide (c.id = cid)) = some card := hg
      have hpc := @List.find?_some Card (fun c : Card => decide (c.id = cid)) card cards hg'
      have hcid : card.id = cid := of_decide_eq_true hpc
      exact get_by_id_putCard cards cid card { card with column_id := t }
        (show ({ card with column_id := t } : Card).id = cid from hcid) hg
    · simp only [if_neg hmem] at h
      exact Option.noConfusion h

/-- The stage executor oracle for the C4 counterexample: both stages
succeed, the plan stage produces a spec path. -/
def c4Oracle : ExecOracle :=
  { plan := { success := true, error := "", spec_path := some "specs/plan.md" }
    implement := { success := true, error := "", spec_path := none } }

/-- C4 counterexample: the claim says the engine invokes the external Stage
Executor at most once per card per cycle.  But for a card starting in
`backlog`, `_act_execute_card` runs both the plan stage and the implement
stage in the same cycle — two invocations. -/
theorem c4_two_invocations_counterexample :
    (act_execute_card c4Oracle [Card.fresh "c9" "T" "D"] (some "c9")).invocations = 2
    ∧ ¬ (act_execute_card c4Oracle [Card.fresh "c9" "T" "D"] (some "c9")).invocations ≤ 1 := by
  constructor
  · rfl
  · decide

/-- C4 (amended): per card per cycle the engine invokes the Stage Executor
at most twice (the plan stage when the card starts in backlog or plan, and
the implement stage when it starts in backlog, plan or implement), and
whenever the action reports success the card is stored in the `done`
column afterwards — the final move targets `done` directly rather than
advancing one column. -/
theorem c4_execute_card_amended (oracle : ExecOracle) (cards : List Card)
    (cid? : Option String) :
    (act_execute_card oracle cards cid?).invocations ≤ 2
    ∧ ((act_execute_card oracle cards cid?).result.success = true →
        ∀ cid, cid? = some cid →
        ∃ c, CardRepository.get_by_id (act_execute_card oracle cards cid?).cards cid = some c
          ∧ c.column_id = "done") := by
  cases cid? with
  | none =>
    exact ⟨Nat.zero_le 2, fun h => Bool.noConfusion h⟩
  | some cid =>
    cases hg : CardRepository.get_by_id cards cid with
    | none =>
      constructor
      · simp only [act_execute_card, hg]
        exact Nat.zero_le 2
      · intro hs
        simp only [act_execute_card, hg] at hs
        exact Bool.noConfusion hs
    | some card0 =>
      by_cases hdone : card0.column_id = "done"
      · constructor
        · simp only [act_execute_card, hg, if_pos hdone]
          exact Nat.zero_le 2
        · intro _ cid2 hcid2
          injection hcid2 with e
          subst e
          simp only [act_execute_card, hg, if_pos hdone]
          exact ⟨card0, rfl, hdone⟩
      · constructor
        · generalize hout : act_execute_card oracle cards (some cid) = out
          unfold act_execute_card at hout
          simp only [hg, if_neg hdone] at hout
          repeat' split at hout
          all_goals subst hout
          all_goals norm_num
        · generalize hout : act_execute_card oracle cards (some cid) = out
          intro hs cid2 hcid2
          injection hcid2 with e
          subst e
          unfold act_execute_card at hout
          simp only [hg, if_neg hdone] at hout
          repeat' split at hout
          all_goals subst hout
          all_goals first
            | exact Bool.noConfusion hs
            | exact move_success_column _ cid "done" (by assumption)

/-- Witness for `c4_execute_card_amended` at a successful concrete run: a
card already in the review column is moved straight to done with zero
invocations. -/
theorem c4_execute_card_amended_witness :
    (act_execute_card c4Oracle [{ Card.fresh "c9" "T" "D" with column_id := "review" }]
        (some "c9")).invocations ≤ 2
    ∧ ((act_execute_card c4Oracle [{ Card.fresh "c9" "T" "D" with column_id := "review" }]
          (some "c9")).result.success = true →
        ∀ cid, (some "c9" : Option String) = some cid →
        ∃ c, CardRepository.get_by_id
            (act_execute_card c4Oracle
              [{ Card.fresh "c9" "T" "D" with column_id := "review" }] (some "c9")).cards cid
            = some c
          ∧ c.column_id = "done") :=
  c4_execute_card_amended c4Oracle [{ Card.fresh "c9" "T" "D" with column_id := "review" }]
    (some "c9")

/-! ## C7: create_fix is idempotent per parent card -/

/-- C7: if at most one live (non-terminal) fix card exists for a parent,
then after `create_fix_card` at most one still exists, and calling
`create_fix_card` again immediately (while the first fix card is still
non-terminal) returns the same fix card and leaves the store unchanged,
instead of creating a duplicate. -/
theorem c7_create_fix_idempotent (cards : List Card) (parent_id : String)
    (e1 e2 : CardRepository.ErrorInfo) (id1 id2 : String)
    (h : (CardRepository.activeFixCards cards parent_id).length ≤ 1)
    (fix1 : Card) (cards1 : List Card)
    (hcf : CardRepository.create_fix_card cards parent_id e1 id1 = some (fix1, cards1)) :
    (CardRepository.activeFixCards cards1 parent_id).length ≤ 1
    ∧ CardRepository.create_fix_card cards1 parent_id e2 id2 = some (fix1, cards1) := by
  unfold CardRepository.create_fix_card at hcf
  cases hp : CardRepository.get_by_id cards parent_id with
  | none =>
    rw [hp] at hcf
    exact Option.noConfusion hcf
  | some parent =>
    simp only [hp] at hcf
    cases haf : CardRepository.get_active_fix_card cards parent_id with
    | some existing =>
      simp only [haf] at hcf
      injection hcf with hcf
      have h1 : existing = fix1 := congrArg Prod.fst hcf
      have h2 : cards = cards1 := congrArg Prod.snd hcf
      subst h1
      subst h2
      refine ⟨h, ?_⟩
      unfold CardRepository.create_fix_card
      simp only [hp, haf]
    | none =>
      simp only [haf] at hcf
      injection hcf with hcf
      have h1 : _ = fix1 := congrArg Prod.fst hcf
      have h2 : _ = cards1 := congrArg Prod.snd hcf
      rw [← h1, ← h2]
      have hall : ∀ c ∈ cards, ¬ CardRepository.isActiveFix parent_id c = true := by
        have := haf
        unfold CardRepository.get_active_fix_card at this
        exact List.find?_eq_none.mp this
      have hfilter : CardRepository.activeFixCards cards parent_id = [] := by
        unfold CardRepository.activeFixCards
        exact List.filter_eq_nil_iff.mpr hall
      have hpred : CardRepository.isActiveFix parent_id
          { id := id1
            title := "[FIX] " ++ parent.title
            description := e1.description
            column_id := "backlog"
            spec_path := none
            model_plan := parent.model_plan
            model_implement := parent.model_implement
            model_test := parent.model_test
            model_review := parent.model_review
            dependencies := []
            is_fix_card := true
            parent_card_id := some parent_id
            test_error_context := some e1.context } = true := by
        unfold CardRepository.isActiveFix CardRepository.terminalColumns
        simp
      constructor
      · unfold CardRepository.activeFixCards at hfilter ⊢
        rw [List.filter_append, hfilter, List.filter_cons, if_pos hpred, List.filter_nil]
        exact Nat.le_refl 1
      · unfold CardRepository.create_fix_card CardRepository.get_by_id
          CardRepository.get_active_fix_card
        unfold CardRepository.get_by_id at hp
        unfold CardRepository.get_active_fix_card at haf
        rw [List.find?_append, hp]
        rw [List.find?_append, haf, Option.none_or,
          List.find?_cons_of_pos _ hpred]
        rfl

/-- A parent card and its freshly created fix card, for the C7 witness. -/
def c7parent : Card := Card.fresh "p1" "Parent" "ParentDesc"

/-- The fix card `create_fix_card` builds for `c7parent` with uuid f1. -/
def c7fix : Card :=
  { id := "f1"
    title := "[FIX] Parent"
    description := "Fix for test failure"
    column_id := "backlog"
    spec_path := none
    model_plan := "opus-4.5"
    model_implement := "opus-4.5"
    model_test := "opus-4.5"
    model_review := "opus-4.5"
    dependencies := []
    is_fix_card := true
    parent_card_id := some "p1"
    test_error_context := some "ctx" }

/-- Witness for `c7_create_fix_idempotent`: one parent card, a first
`create_fix_card` call creating f1, the second call returning f1 again. -/
theorem c7_create_fix_idempotent_witness :
    (CardRepository.activeFixCards [c7parent, c7fix] "p1").length ≤ 1
    ∧ CardRepository.create_fix_card [c7parent, c7fix] "p1"
        ⟨"Fix for test failure", "ctx2"⟩ "f2" = some (c7fix, [c7parent, c7fix]) :=
  c7_create_fix_idempotent [c7parent] "p1" ⟨"Fix for test failure", "ctx"⟩
    ⟨"Fix for test failure", "ctx2"⟩ "f1" "f2" (by decide) c7fix [c7parent, c7fix] (by decide)

/-! ## C8: dependency resolution after decomposition -/

/-- Every id the order-to-id dict maps to was recorded as a created card id
by the first pass. -/
theorem first_pass_o2i_created (idGen : Nat → String) (goal_id : String) :
    ∀ (dcards : List DecomposedCard) (i : Nat) (cards : List Card) (goals : List Goal)
      (o2i : Int → Option String) (created : List String),
      (∀ o id, o2i o = some id → id ∈ created) →
      ∀ o id,
        (decompose_first_pass idGen goal_id dcards i cards goals o2i created).2.2.1 o = some id →
        id ∈ (decompose_first_pass idGen goal_id dcards i cards goals o2i created).2.2.2 := by
  intro dcards
  induction dcards with
  | nil =>
    intro i cards goals o2i created hinv o id ho
    exact hinv o id ho
  | cons dc rest ih =>
    intro i cards goals o2i created hinv
    unfold decompose_first_pass
    apply ih
    intro o id ho
    by_cases hoe : o = dc.order
    · rw [if_pos hoe] at ho
      injection ho with ho
      rw [← ho]
      exact List.mem_append_right _ (List.mem_singleton.mpr rfl)
    · rw [if_neg hoe] at ho
      exact List.mem_append_left _ (hinv o id ho)

/-- The first-pass dict knows an order index exactly when the initial dict
knew it or some proposed card declares that order. -/
theorem first_pass_o2i_domain (idGen : Nat → String) (goal_id : String) :
    ∀ (dcards : List DecomposedCard) (i : Nat) (cards : List Card) (goals : List Goal)
      (o2i : Int → Option String) (created : List String) (o : Int),
      ((decompose_first_pass idGen goal_id dcards i cards goals o2i created).2.2.1 o).isSome
      ↔ ((o2i o).isSome ∨ ∃ dc ∈ dcards, dc.order = o) := by
  intro dcards
  induction dcards with
  | nil =>
    intro i cards goals o2i created o
    simp [decompose_first_pass]
  | cons dc rest ih =>
    intro i cards goals o2i created o
    unfold decompose_first_pass
    rw [ih]
    by_cases hoe : o = dc.order
    · simp only [if_pos hoe, Option.isSome_some]
      constructor
      · intro _
        exact Or.inr ⟨dc, List.mem_cons_self dc rest, hoe.symm⟩
      · intro _
        first
        | trivial
        | exact Or.inl trivial
    · simp only [if_neg hoe]
      constructor
      · rintro (hs | ⟨dc2, hdc2, horder⟩)
        · exact Or.inl hs
        · exact Or.inr ⟨dc2, List.mem_cons_of_mem dc hdc2, horder⟩
      · rintro (hs | ⟨dc2, hdc2, horder⟩)
        · exact Or.inl hs
        · rcases List.mem_cons.mp hdc2 with rfl | hdc2
          · exact absurd horder.symm hoe
          · exact Or.inr ⟨dc2, hdc2, horder⟩

/-- Declared order indices the dict does not know contribute nothing to the
resolved dependency list (they are silently dropped). -/
theorem resolve_deps_drops_unknown (o2i : Int → Option String) (deps : List Int) :
    resolve_deps o2i deps
      = resolve_deps o2i (deps.filter (fun o => (o2i o).isSome)) := by
  unfold resolve_deps
  induction deps with
  | nil => rfl
  | cons d rest ih =>
    rw [List.filter_cons]
    cases hd : o2i d with
    | none => simp [List.filterMap_cons, hd, ih]
    | some v => simp [List.filterMap_cons, hd, ih]

/-- Members of `update_dependencies` either were already stored unchanged or
carry exactly the written dependency list. -/
theorem mem_update_dependencies (cs : List Card) (cid : String) (deps : List String) :
    ∀ c ∈ CardRepository.update_dependencies cs cid deps,
      c ∈ cs ∨ c.dependencies = deps := by
  intro c hc
  unfold CardRepository.update_dependencies at hc
  cases hg : CardRepository.get_by_id cs cid with
  | none =>
    rw [hg] at hc
    exact Or.inl hc
  | some card =>
    simp only [hg] at hc
    unfold CardRepository.putCard at hc
    rw [List.mem_map] at hc
    obtain ⟨a, ha, hfa⟩ := hc
    by_cases hid : a.id = ({ card with dependencies := deps } : Card).id
    · rw [if_pos hid] at hfa
      right
      rw [← hfa]
    · rw [if_neg hid] at hfa
      left
      rw [← hfa]
      exact ha

/-- Members of one second-pass step either were already stored or carry the
resolved dependency list of the step's proposed card. -/
theorem mem_second_pass_step (o2i : Int → Option String) (cs : List Card)
    (dc : DecomposedCard) :
    ∀ c ∈ second_pass_step o2i cs dc,
      c ∈ cs ∨ c.dependencies = resolve_deps o2i dc.dependencies := by
  intro c hc
  unfold second_pass_step at hc
  by_cases hde : dc.dependencies.isEmpty
  · rw [if_pos hde] at hc
    exact Or.inl hc
  · rw [if_neg hde] at hc
    cases ho : o2i dc.order with
    | none =>
      rw [ho] at hc
      exact Or.inl hc
    | some card_id =>
      simp only [ho] at hc
      by_cases hre : (resolve_deps o2i dc.dependencies).isEmpty
      · rw [if_pos hre] at hc
        exact Or.inl hc
      · rw [if_neg hre] at hc
        exact mem_update_dependencies cs card_id (resolve_deps o2i dc.dependencies) c hc

/-- After the whole second pass, every stored card either kept the
dependency list it had before the pass (matched by id) or carries only
ids the dict maps to — under the dict-soundness hypothesis, only ids of
cards created by the first pass. -/
theorem second_pass_no_dangling (o2i : Int → Option String) (created : List String)
    (hmap : ∀ o id, o2i o = some id → id ∈ created) :
    ∀ (dcards : List DecomposedCard) (cs : List Card),
      ∀ c ∈ decompose_second_pass o2i dcards cs,
        (∀ d ∈ c.dependencies, d ∈ created)
        ∨ ∃ c0 ∈ cs, c0.id = c.id ∧ c0.dependencies = c.dependencies := by
  intro dcards
  induction dcards with
  | nil =>
    intro cs c hc
    exact Or.inr ⟨c, hc, rfl, rfl⟩
  | cons dc rest ih =>
    intro cs c hc
    have hc2 : c ∈ decompose_second_pass o2i rest (second_pass_step o2i cs dc) := hc
    rcases ih (second_pass_step o2i cs dc) c hc2 with hleft | ⟨c0, hc0, hcid, hcdeps⟩
    · exact Or.inl hleft
    · rcases mem_second_pass_step o2i cs dc c0 hc0 with hmem | hresolved
      · exact Or.inr ⟨c0, hmem, hcid, hcdeps⟩
      · left
        intro d hd
        rw [← hcdeps, hresolved] at hd
        obtain ⟨o, _, ho⟩ := List.mem_filterMap.mp hd
        exact hmap o d ho

/-- C8: the order-to-id dict built by decomposition maps order indices only
to ids of cards created in the first pass, knows exactly the declared
orders of proposed cards, silently drops (without error) every dependency
order index it does not know, and after the second pass no stored card
carries a dependency id that is not a created card's id unless it kept its
pre-pass dependency list unchanged. -/
theorem c8_dependency_resolution (idGen : Nat → String) (goal_id : String)
    (dcards : List DecomposedCard) (goals : List Goal) (cards : List Card) :
    let r := decompose_first_pass idGen goal_id dcards 0 cards goals (fun _ => none) []
    (∀ o id, r.2.2.1 o = some id → id ∈ r.2.2.2)
    ∧ (∀ o, (r.2.2.1 o).isSome ↔ ∃ dc ∈ dcards, dc.order = o)
    ∧ (∀ deps id, id ∈ resolve_deps r.2.2.1 deps → ∃ o ∈ deps, r.2.2.1 o = some id)
    ∧ (∀ deps, resolve_deps r.2.2.1 deps
        = resolve_deps r.2.2.1 (deps.filter (fun o => (r.2.2.1 o).isSome)))
    ∧ (∀ c ∈ decompose_second_pass r.2.2.1 dcards r.1,
        (∀ d ∈ c.dependencies, d ∈ r.2.2.2)
        ∨ ∃ c0 ∈ r.1, c0.id = c.id ∧ c0.dependencies = c.dependencies) := by
  intro r
  have hsound : ∀ o id, r.2.2.1 o = some id → id ∈ r.2.2.2 :=
    first_pass_o2i_created idGen goal_id dcards 0 cards goals (fun _ => none) []
      (fun o id ho => Option.noConfusion ho)
  refine ⟨hsound, ?_, ?_, ?_, ?_⟩
  · intro o
    rw [first_pass_o2i_domain idGen goal_id dcards 0 cards goals (fun _ => none) [] o]
    simp
  · intro deps id hid
    exact List.mem_filterMap.mp hid
  · intro deps
    exact resolve_deps_drops_unknown r.2.2.1 deps
  · exact second_pass_no_dangling r.2.2.1 r.2.2.2 hsound dcards r.1

/-- Witness for `c8_dependency_resolution`: two proposed cards, the second
declaring a dependency on order 1 and on the missing order 7. -/
theorem c8_dependency_resolution_witness :
    let r := decompose_first_pass (fun n => "id-" ++ toString n) "g1"
      [⟨"A", "a", 1, []⟩, ⟨"B", "b", 2, [1, 7]⟩] 0 [] [] (fun _ => none) []
    (∀ o id, r.2.2.1 o = some id → id ∈ r.2.2.2)
    ∧ (∀ o, (r.2.2.1 o).isSome ↔
        ∃ dc ∈ ([⟨"A", "a", 1, []⟩, ⟨"B", "b", 2, [1, 7]⟩] : List DecomposedCard),
          dc.order = o)
    ∧ (∀ deps id, id ∈ resolve_deps r.2.2.1 deps → ∃ o ∈ deps, r.2.2.1 o = some id)
    ∧ (∀ deps, resolve_deps r.2.2.1 deps
        = resolve_deps r.2.2.1 (deps.filter (fun o => (r.2.2.1 o).isSome)))
    ∧ (∀ c ∈ decompose_second_pass r.2.2.1 [⟨"A", "a", 1, []⟩, ⟨"B", "b", 2, [1, 7]⟩] r.1,
        (∀ d ∈ c.dependencies, d ∈ r.2.2.2)
        ∨ ∃ c0 ∈ r.1, c0.id = c.id ∧ c0.dependencies = c.dependencies) :=
  c8_dependency_resolution (fun n => "id-" ++ toString n) "g1"
    [⟨"A", "a", 1, []⟩, ⟨"B", "b", 2, [1, 7]⟩] [] []

/-! ## C2: transaction behavior of one cycle -/

/-- Cycle inputs for the C2 counterexample: safe usage, a successful stage
executor, and a Record step that raises. -/
def c2Inputs : CycleInputs :=
  { usage := safeUsage
    decomposition := { success := false, cards := [], reasoning := "", error := none }
    exec := c4Oracle
    fix_id := "f0"
    idGen := fun n => toString n
    record_fails := true }

/-- Committed store for the C2 counterexample: one active goal whose only
card sits in review, ready to execute. -/
def c2Store : StoreState :=
  { goals := [{ id := "g1", description := "demo goal", status := .active, cards := ["c1"] }]
    cards := [{ Card.fresh "c1" "T" "D" with column_id := "review" }] }

/-- C2 counterexample: the claim says a cycle is committed exactly once on
success and that no state mutated by a failed cycle is ever durable.  But
on this store the cycle decides EXECUTE_CARD, `_act_execute_card` moves the
card to done and commits the session mid-cycle, and when the Record step
then raises, the cycle fails (rolls back) yet the card's move to done is
already durable: the committed store changed. -/
theorem c2_midcycle_commit_counterexample :
    (execute_cycle c2Inputs c2Store).ok = false
    ∧ (execute_cycle c2Inputs c2Store).commits = 1
    ∧ (execute_cycle c2Inputs c2Store).committed ≠ c2Store
    ∧ (execute_cycle c2Inputs c2Store).committed.cards.map Card.column_id = ["done"] := by
  refine ⟨rfl, rfl, ?_, rfl⟩
  decide

/-- Only the card-execution handlers ever commit mid-cycle. -/
theorem step_act_inner_false (inp : CycleInputs) (tr : ThinkResult) (st : StoreState)
    (h1 : tr.decision ≠ .execute_card) (h2 : tr.decision ≠ .execute_cards_parallel) :
    (step_act inp tr st).2.2 = false := by
  unfold step_act
  cases hd : tr.decision
  case verify_limit => rfl
  case decompose => rfl
  case execute_card => exact absurd hd h1
  case execute_cards_parallel => exact absurd hd h2
  case create_fix => rfl
  case complete_goal => rfl
  case wait => rfl

/-- C2 (amended): the outer transaction commits once on success and rolls
back on an unhandled exception, and a failed cycle with no mid-cycle
commit leaves the committed store unchanged — in particular in every cycle
whose decision is not card execution (e.g. a DECOMPOSE cycle that
activated a goal in Think), nothing a failed cycle mutated is durable.
But a successful EXECUTE_CARD action commits the session once more in
mid-cycle, so a successful such cycle commits twice, and a failed one can
leave its mutations durable (see the counterexample). -/
theorem c2_transaction_amended (inp : CycleInputs) (st : StoreState) :
    ((execute_cycle inp st).ok = false → (execute_cycle inp st).commits = 0 →
      (execute_cycle inp st).committed = st)
    ∧ ((execute_cycle inp st).ok = true →
        1 ≤ (execute_cycle inp st).commits ∧ (execute_cycle inp st).commits ≤ 2)
    ∧ ((step_think inp.usage st.goals st.cards).1.decision ≠ .execute_card →
        (step_think inp.usage st.goals st.cards).1.decision ≠ .execute_cards_parallel →
        (execute_cycle inp st).commits ≤ 1
        ∧ ((execute_cycle inp st).ok = false → (execute_cycle inp st).committed = st)) := by
  refine ⟨?_, ?_, ?_⟩
  · intro hok hcommits
    unfold execute_cycle at hok hcommits ⊢
    by_cases hrf : inp.record_fails
    · simp only [if_pos hrf] at hok hcommits ⊢
      by_cases hinner : (step_act inp (step_think inp.usage st.goals st.cards).1
          ⟨(step_think inp.usage st.goals st.cards).2, st.cards⟩).2.2 = true
      · simp only [if_pos hinner] at hcommits
        exact absurd hcommits one_ne_zero
      · simp only [if_neg hinner]
    · simp only [if_neg hrf] at hok
      exact Bool.noConfusion hok
  · intro hok
    unfold execute_cycle at hok ⊢
    by_cases hrf : inp.record_fails
    · simp only [if_pos hrf] at hok
      exact Bool.noConfusion hok
    · simp only [if_neg hrf]
      by_cases hinner : (step_act inp (step_think inp.usage st.goals st.cards).1
          ⟨(step_think inp.usage st.goals st.cards).2, st.cards⟩).2.2 = true
      · simp only [if_pos hinner]
        exact ⟨by omega, by omega⟩
      · simp only [if_neg hinner]
        exact ⟨by omega, by omega⟩
  · intro h1 h2
    have hinner : (step_act inp (step_think inp.usage st.goals st.cards).1
        ⟨(step_think inp.usage st.goals st.cards).2, st.cards⟩).2.2 = false :=
      step_act_inner_false inp (step_think inp.usage st.goals st.cards).1
        ⟨(step_think inp.usage st.goals st.cards).2, st.cards⟩ h1 h2
    constructor
    · unfold execute_cycle
      by_cases hrf : inp.record_fails
      · simp [hrf, hinner]
      · simp [hrf, hinner]
    · intro hok
      unfold execute_cycle at hok ⊢
      by_cases hrf : inp.record_fails
      · simp [hrf, hinner]
      · simp only [if_neg hrf] at hok
        exact Bool.noConfusion hok

/-- Store for the C2 witness: one pending goal and no cards. -/
def c2wStore : StoreState :=
  { goals := [{ id := "g2", description := "another goal", status := .pending, cards := [] }]
    cards := [] }

/-- Witness for `c2_transaction_amended` at a concrete failed DECOMPOSE
cycle: the inner implications are discharged at `c2Inputs`/`c2wStore`. -/
theorem c2_transaction_amended_witness :
    ((execute_cycle c2Inputs c2wStore).ok = false →
      (execute_cycle c2Inputs c2wStore).commits = 0 →
      (execute_cycle c2Inputs c2wStore).committed = c2wStore)
    ∧ ((execute_cycle c2Inputs c2wStore).ok = true →
        1 ≤ (execute_cycle c2Inputs c2wStore).commits
        ∧ (execute_cycle c2Inputs c2wStore).commits ≤ 2)
    ∧ ((step_think c2Inputs.usage c2wStore.goals c2wStore.cards).1.decision ≠ .execute_card →
        (step_think c2Inputs.usage c2wStore.goals c2wStore.cards).1.decision
          ≠ .execute_cards_parallel →
        (execute_cycle c2Inputs c2wStore).commits ≤ 1
        ∧ ((execute_cycle c2Inputs c2wStore).ok = false →
            (execute_cycle c2Inputs c2wStore).committed = c2wStore)) :=
  c2_transaction_amended c2Inputs c2wStore

/-! ## C1: at most one active goal at any committed point -/

/-- Marking a goal completed never increases the number of active goals. -/
theorem countActive_update_status_completed (gs : List Goal) (gid : String) :
    countActive (GoalRepository.update_status gs gid .completed) ≤ countActive gs := by
  unfold countActive GoalRepository.update_status
  rw [← List.countP_eq_length_filter, ← List.countP_eq_length_filter, List.countP_map]
  apply List.countP_mono_left
  intro g hg hp
  by_cases hid : g.id = gid
  · simp only [Function.comp, if_pos hid] at hp
    exact absurd (of_decide_eq_true hp) (fun h => GoalStatus.noConfusion h)
  · simp only [Function.comp, if_neg hid] at hp
    exact hp

/-- If `get_active_goal` sees nothing, no goal is active. -/
theorem countActive_eq_zero_of_no_active (gs : List Goal)
    (h : GoalRepository.get_active_goal gs = none) : countActive gs = 0 := by
  unfold GoalRepository.get_active_goal at h
  unfold countActive
  rw [← List.countP_eq_length_filter, List.countP_eq_zero]
  exact List.find?_eq_none.mp h

/-- With primary-key ids, at most one stored goal row matches a given id. -/
theorem countP_goal_id_le_one (gs : List Goal) (gid : String)
    (hnodup : (gs.map Goal.id).Nodup) :
    gs.countP (fun g => decide (g.id = gid)) ≤ 1 := by
  have h1 : gs.countP (fun g => decide (g.id = gid))
      = (gs.map Goal.id).countP (fun x => decide (x = gid)) := by
    rw [List.countP_map]
    rfl
  have h2 : (gs.map Goal.id).countP (fun x => decide (x = gid))
      = List.count gid (gs.map Goal.id) := by
    rw [List.count_eq_countP]
    apply List.countP_congr
    intro a _
    by_cases h : a = gid <;> simp [h]
  rw [h1, h2]
  exact List.nodup_iff_count_le_one.mp hnodup gid

/-- Activating one goal id in a table with no active goal and
primary-key ids leaves at most one goal active. -/
theorem countActive_update_status_active (gs : List Goal) (gid : String)
    (hnodup : (gs.map Goal.id).Nodup) (hzero : countActive gs = 0) :
    countActive (GoalRepository.update_status gs gid .active) ≤ 1 := by
  unfold countActive at hzero ⊢
  unfold GoalRepository.update_status
  rw [← List.countP_eq_length_filter] at hzero
  rw [← List.countP_eq_length_filter, List.countP_map]
  have hmono : ∀ g ∈ gs, ((fun g : Goal => decide (g.status = GoalStatus.active)) ∘
      (fun g : Goal => if g.id = gid then { g with status := .active } else g)) g = true →
      (fun g : Goal => decide (g.id = gid)) g = true := by
    intro g hg hp
    by_cases hid : g.id = gid
    · simp [hid]
    · simp only [Function.comp, if_neg hid] at hp
      exact absurd hp (List.countP_eq_zero.mp hzero g hg)
  calc gs.countP _ ≤ gs.countP (fun g => decide (g.id = gid)) := List.countP_mono_left hmono
    _ ≤ 1 := countP_goal_id_le_one gs gid hnodup

/-- `update_status` keeps the list of goal ids. -/
theorem update_status_ids (gs : List Goal) (gid : String) (s : GoalStatus) :
    (GoalRepository.update_status gs gid s).map Goal.id = gs.map Goal.id := by
  unfold GoalRepository.update_status
  rw [List.map_map]
  apply List.map_congr_left
  intro g _
  by_cases hid : g.id = gid <;> simp [hid]

/-- `add_card` touches only the card list of a goal: statuses and ids are
unchanged. -/
theorem add_card_frame (gs : List Goal) (gid cid : String) :
    countActive (GoalRepository.add_card gs gid cid) = countActive gs
    ∧ (GoalRepository.add_card gs gid cid).map Goal.id = gs.map Goal.id := by
  constructor
  · unfold countActive GoalRepository.add_card
    rw [← List.countP_eq_length_filter, ← List.countP_eq_length_filter, List.countP_map]
    apply List.countP_congr
    intro g _
    by_cases hid : g.id = gid <;> simp [hid]
  · unfold GoalRepository.add_card
    rw [List.map_map]
    apply List.map_congr_left
    intro g _
    by_cases hid : g.id = gid <;> simp [hid]

/-- The first pass of decomposition only appends card ids to goals: active
counts and goal ids are unchanged. -/
theorem first_pass_goals_frame (idGen : Nat → String) (goal_id : String) :
    ∀ (dcards : List DecomposedCard) (i : Nat) (cards : List Card) (goals : List Goal)
      (o2i : Int → Option String) (created : List String),
      countActive (decompose_first_pass idGen goal_id dcards i cards goals o2i created).2.1
        = countActive goals
      ∧ (decompose_first_pass idGen goal_id dcards i cards goals o2i created).2.1.map Goal.id
        = goals.map Goal.id := by
  intro dcards
  induction dcards with
  | nil =>
    intro i cards goals o2i created
    exact ⟨rfl, rfl⟩
  | cons dc rest ih =>
    intro i cards goals o2i created
    unfold decompose_first_pass
    have hrec := ih (i + 1)
      (CardRepository.create cards (idGen i) dc.title dc.description).2
      (GoalRepository.add_card goals goal_id
        (CardRepository.create cards (idGen i) dc.title dc.description).1.id)
      (fun o => if o = dc.order
        then some (CardRepository.create cards (idGen i) dc.title dc.description).1.id
        else o2i o)
      (created ++ [(CardRepository.create cards (idGen i) dc.title dc.description).1.id])
    have hadd := add_card_frame goals goal_id
      (CardRepository.create cards (idGen i) dc.title dc.description).1.id
    exact ⟨hrec.1.trans hadd.1, hrec.2.trans hadd.2⟩

/-- `act_decompose` never changes a goal's status or id. -/
theorem act_decompose_goals_frame (idGen : Nat → String) (deco : DecompositionResult)
    (goal_id? : Option String) (goals : List Goal) (cards : List Card) :
    countActive (act_decompose idGen deco goal_id? goals cards).2.1 = countActive goals
    ∧ (act_decompose idGen deco goal_id? goals cards).2.1.map Goal.id = goals.map Goal.id := by
  cases goal_id? with
  | none => exact ⟨rfl, rfl⟩
  | some goal_id =>
    unfold act_decompose
    cases hg : GoalRepository.get_by_id goals goal_id with
    | none =>
      simp only [hg]
      constructor <;> trivial
    | some goal =>
      simp only [hg]
      by_cases hsucc : (!deco.success) = true
      · rw [if_pos hsucc]
        exact ⟨rfl, rfl⟩
      · rw [if_neg hsucc]
        exact first_pass_goals_frame idGen goal_id deco.cards 0 cards goals (fun _ => none) []

/-- `act_complete_goal` never increases the active count and keeps ids. -/
theorem act_complete_goal_goals (goal_id? : Option String) (goals : List Goal) :
    countActive (act_complete_goal goal_id? goals).2 ≤ countActive goals
    ∧ (act_complete_goal goal_id? goals).2.map Goal.id = goals.map Goal.id := by
  cases goal_id? with
  | none => exact ⟨Nat.le_refl _, rfl⟩
  | some goal_id =>
    unfold act_complete_goal
    cases hg : GoalRepository.get_by_id goals goal_id with
    | none =>
      simp only [hg]
      exact ⟨Nat.le_refl _, trivial⟩
    | some goal =>
      simp only [hg]
      exact ⟨countActive_update_status_completed goals goal_id,
        update_status_ids goals goal_id .completed⟩

/-- The Act step never increases the committed active-goal count and keeps
the goal ids. -/
theorem step_act_goals (inp : CycleInputs) (tr : ThinkResult) (st : StoreState) :
    countActive (step_act inp tr st).2.1.goals ≤ countActive st.goals
    ∧ (step_act inp tr st).2.1.goals.map Goal.id = st.goals.map Goal.id := by
  unfold step_act
  cases hd : tr.decision
  case verify_limit => exact ⟨Nat.le_refl _, rfl⟩
  case decompose =>
    have h := act_decompose_goals_frame inp.idGen inp.decomposition tr.goal_id st.goals st.cards
    exact ⟨Nat.le_of_eq h.1, h.2⟩
  case execute_card => exact ⟨Nat.le_refl _, rfl⟩
  case execute_cards_parallel => exact ⟨Nat.le_refl _, rfl⟩
  case create_fix => exact ⟨Nat.le_refl _, rfl⟩
  case complete_goal => exact act_complete_goal_goals tr.goal_id st.goals
  case wait => exact ⟨Nat.le_refl _, rfl⟩

/-- The Think step preserves the at-most-one-active bound and the goal
ids. -/
theorem step_think_goals (u : UsageInfo) (goals : List Goal) (cards : List Card)
    (hnodup : (goals.map Goal.id).Nodup) (h : countActive goals ≤ 1) :
    countActive (step_think u goals cards).2 ≤ 1
    ∧ (step_think u goals cards).2.map Goal.id = goals.map Goal.id := by
  rcases step_think_mutation_cases u goals cards with heq | ⟨hact, g, _gs, _hp, _hdec, hupd⟩
  · rw [heq]
    exact ⟨h, rfl⟩
  · rw [hupd]
    exact ⟨countActive_update_status_active goals g.id hnodup
        (countActive_eq_zero_of_no_active goals hact),
      update_status_ids goals g.id .active⟩

/-- One full cycle preserves well-formedness of the committed store. -/
theorem goalsWF_preserved (inp : CycleInputs) (st : StoreState) (h : GoalsWF st) :
    GoalsWF (execute_cycle inp st).committed := by
  obtain ⟨hnodup, hcount⟩ := h
  have hthink := step_think_goals inp.usage st.goals st.cards hnodup hcount
  have hact := step_act_goals inp (step_think inp.usage st.goals st.cards).1
    ⟨(step_think inp.usage st.goals st.cards).2, st.cards⟩
  have hwf2 : GoalsWF (step_act inp (step_think inp.usage st.goals st.cards).1
      ⟨(step_think inp.usage st.goals st.cards).2, st.cards⟩).2.1 := by
    constructor
    · rw [hact.2]
      rw [show ((⟨(step_think inp.usage st.goals st.cards).2, st.cards⟩ : StoreState).goals)
          = (step_think inp.usage st.goals st.cards).2 from rfl, hthink.2]
      exact hnodup
    · exact Nat.le_trans hact.1 hthink.1
  unfold execute_cycle
  by_cases hrf : inp.record_fails
  · simp only [if_pos hrf]
    by_cases hinner : (step_act inp (step_think inp.usage st.goals st.cards).1
        ⟨(step_think inp.usage st.goals st.cards).2, st.cards⟩).2.2 = true
    · simp only [if_pos hinner]
      exact hwf2
    · simp only [if_neg hinner]
      exact ⟨hnodup, hcount⟩
  · simp only [if_neg hrf]
    exact hwf2

/-- C1: starting from a committed store whose goal ids are distinct and in
which at most one goal is active, every committed store reachable by
cycles has at most one active goal — the Think step only activates the
first pending goal when `get_active_goal` returns none, Act only ever
deactivates (COMPLETE_GOAL), and no cycle creates goals. -/
theorem c1_at_most_one_active_goal (s s' : StoreState) (h0 : GoalsWF s)
    (hreach : Relation.ReflTransGen cycleStep s s') :
    countActive s'.goals ≤ 1 := by
  have hwf : GoalsWF s' := by
    induction hreach with
    | refl => exact h0
    | tail _ hstep ih =>
      obtain ⟨inp, heq⟩ := hstep
      rw [← heq]
      exact goalsWF_preserved inp _ ih
  exact hwf.2

/-- Witness for `c1_at_most_one_active_goal` at a concrete well-formed
store (one pending goal), with the reflexive reachability step. -/
theorem c1_at_most_one_active_goal_witness :
    countActive (⟨[pendingGoal], []⟩ : StoreState).goals ≤ 1 :=
  c1_at_most_one_active_goal ⟨[pendingGoal], []⟩ ⟨[pendingGoal], []⟩
    (by constructor <;> decide) Relation.ReflTransGen.refl

end Orq
